import Mathlib

/-!
Verification development for the satori-taffy layout core.

This file shallowly embeds the parts of the TypeScript source that the
verified properties are about:

* `src/parser/grid.ts` — the grid track template parsing
  (`parseGridTemplate`), including `repeat(...)` expansion and the
  whitespace/paren tokenizer;
* `src/handler/compute.ts` — the display-grid fallback for the Yoga engine
  and the replaced-element (img) intrinsic-size guard;
* `src/layout-engine/yoga-adapter.ts` and `src/taffy/taffy-prebuilt.ts` —
  the two backend adapters' `setFlexBasis` translation, and the edge-indexed
  `setPosition` mapping of both adapters;
* `src/taffy/taffy-prebuilt.ts` — the batched style flush before solve
  (`calculateLayout` / `applyPendingStyleUpdates`), the measure-callback
  available-space normalization in `TaffyRoot.computeLayout`, the
  bounded-depth measure recursion guard, and the implicit default solve in
  `ensureLayoutCalculated`.

JavaScript numbers are modelled as rationals (`ℚ`); `undefined` as `Option`;
thrown errors as `Except`.
-/

set_option autoImplicit false

namespace SatoriTaffy

/-! ## JavaScript number and string primitives -/

/-- `Number.MAX_SAFE_INTEGER`. -/
def maxSafeInteger : ℚ := 9007199254740991

/-- Numeric value of a list of decimal digit characters. -/
def digitsVal (cs : List Char) : ℕ :=
  cs.foldl (fun a c => a * 10 + (c.toNat - 48)) 0

/-- JavaScript `String.prototype.trim`: whitespace stripped from both
ends.  (Implemented directly on the character list; the core `String.trim`
is byte-position based and does not reduce in the kernel.) -/
def jsTrim (s : String) : String :=
  String.mk (((s.data.dropWhile (fun c => c.isWhitespace)).reverse.dropWhile
    (fun c => c.isWhitespace)).reverse)

/-- JavaScript `String.prototype.endsWith`. -/
def strEndsWith (s t : String) : Bool :=
  t.data.isSuffixOf s.data

/-- JavaScript `String.prototype.startsWith`. -/
def strStartsWith (s t : String) : Bool :=
  t.data.isPrefixOf s.data

/-- Split a character list at every character satisfying `p`
(JavaScript `split` semantics: `n` separators give `n + 1` pieces). -/
def splitChars (p : Char → Bool) (cs : List Char) : List (List Char) :=
  cs.foldr
    (fun c acc =>
      if p c then [] :: acc
      else
        match acc with
        | g :: gs => (c :: g) :: gs
        | [] => [[c]])
    [[]]

/-- JavaScript `String.prototype.split` with a single-character separator. -/
def strSplitOn (s : String) (sep : Char) : List String :=
  (splitChars (fun c => c = sep) s.data).map String.mk

/-- ASCII lower-casing of one character (JavaScript `toLowerCase` on the
ASCII range this code meets). -/
def charLower (c : Char) : Char :=
  if 'A' ≤ c ∧ c ≤ 'Z' then Char.ofNat (c.toNat + 32) else c

/-- JavaScript `String.prototype.toLowerCase` (ASCII range). -/
def strToLower (s : String) : String :=
  String.mk (s.data.map charLower)

/-- Model of JavaScript `parseFloat` on the decimal strings this code meets:
leading whitespace is skipped, then an optional sign, then digits with an
optional fractional part are parsed (longest prefix); `none` models `NaN`.
(The exponent form `1e3` is not modelled; no style value in this code uses
it.) -/
def parseFloatQ (s : String) : Option ℚ :=
  let cs := s.data.dropWhile (fun c => c.isWhitespace)
  let sign : ℤ × List Char :=
    match cs with
    | '+' :: r => (1, r)
    | '-' :: r => (-1, r)
    | _ => (1, cs)
  let intPart := sign.2.takeWhile (fun c => c.isDigit)
  let rest := sign.2.drop intPart.length
  let fracPart :=
    match rest with
    | '.' :: r => r.takeWhile (fun c => c.isDigit)
    | _ => []
  if intPart.isEmpty ∧ fracPart.isEmpty then none
  else
    let den := Nat.pow 10 fracPart.length
    some (mkRat (sign.1 * (digitsVal intPart * den + digitsVal fracPart)) den)

/-! ## Grid track model (`src/parser/grid.ts`)

`GridTrack` mirrors the `GridTrack` interface: `value`, `min` and `max` hold
either a JavaScript number (possibly `NaN`) or a string. -/

/-- A `number | string` field of a parsed track; `nan` models a pushed
`NaN` from `parseFloat`. -/
inductive TrackVal where
  | num (q : ℚ)
  | str (s : String)
  | nan
deriving DecidableEq, Repr

/-- The `type` tag of a parsed track. -/
inductive TrackType where
  | fr
  | px
  | auto
  | minmax
  | rep
  | minContent
  | maxContent
deriving DecidableEq, Repr

/-- One parsed grid track, as produced by `parseGridTemplate`. -/
structure GridTrack where
  type : TrackType
  value : TrackVal
  min : Option TrackVal := none
  max : Option TrackVal := none
deriving DecidableEq, Repr

/-- Coerce a `parseFloat` result to a track field, keeping `NaN`. -/
def numOrNaN : Option ℚ → TrackVal
  | some q => .num q
  | none => .nan

/-- The `repeat(N, pattern)` matcher: the regular expression
`repeat\((\d+),\s*([^)]+)\)` tried at the head of the character list.
On success returns the count, the trimmed captured pattern (the replacement
trims it before use, so taking the whole segment is equivalent), and the
remaining characters after the match. -/
def matchRepeatAt (cs : List Char) : Option (ℕ × String × List Char) :=
  if cs.take 7 = "repeat(".data then
    let r1 := cs.drop 7
    let ds := r1.takeWhile (fun c => c.isDigit)
    if ds.isEmpty then none
    else
      match r1.drop ds.length with
      | ',' :: r3 =>
        let seg := r3.takeWhile (fun c => c ≠ ')')
        if seg.isEmpty then none
        else
          match r3.drop seg.length with
          | ')' :: r5 => some (digitsVal ds, jsTrim (String.mk seg), r5)
          | _ => none
      | _ => none
  else none

/-- `Array(repeatCount).fill(templateStr).join(' ')`. -/
def joinSpaces (l : List String) : String :=
  String.intercalate " " l

/-- Global replacement of every `repeat(N, pattern)` occurrence by the
pattern literally repeated `N` times, scanning left to right (fuelled by the
input length; each match consumes at least one character). -/
def expandRepeatsAux : ℕ → List Char → List Char
  | _, [] => []
  | 0, l => l
  | fuel + 1, c :: rest =>
    match matchRepeatAt (c :: rest) with
    | some (n, tmpl, rest5) =>
      (joinSpaces (List.replicate n tmpl)).data ++ expandRepeatsAux fuel rest5
    | none => c :: expandRepeatsAux fuel rest

/-- `value.replace(/repeat\((\d+),\s*([^)]+)\)/g, ...)` from
`parseGridTemplate`. -/
def expandRepeats (s : String) : String :=
  String.mk (expandRepeatsAux s.data.length s.data)

/-- Tokenizer state: paren depth, current token characters, finished
tokens. -/
structure TokState where
  depth : ℤ
  cur : List Char
  toks : List String

/-- One character step of the tokenizer loop in `parseGridTemplate`:
depth is updated first, then a space at depth 0 finishes the current token
(trimmed, dropped when empty); any other character is appended. -/
def tokenizeStep (st : TokState) (c : Char) : TokState :=
  let depth :=
    if c = '(' then st.depth + 1
    else if c = ')' then st.depth - 1
    else st.depth
  if c = ' ' ∧ depth = 0 then
    let t := jsTrim (String.mk st.cur)
    ⟨depth, [], if t = "" then st.toks else st.toks ++ [t]⟩
  else
    ⟨depth, st.cur ++ [c], st.toks⟩

/-- Whitespace tokenization treating parenthesized calls as atomic,
flushing the trailing token at the end. -/
def tokenize (s : String) : List String :=
  let st := s.data.foldl tokenizeStep ⟨0, [], []⟩
  let t := jsTrim (String.mk st.cur)
  if t = "" then st.toks else st.toks ++ [t]

/-- A `minmax` bound: tokens ending in `px`, `fr` or `%` are parsed to a
number, anything else is kept as the raw string. -/
def minmaxBound (s : String) : TrackVal :=
  if strEndsWith s "px" ∨ strEndsWith s "fr" ∨ strEndsWith s "%" then
    numOrNaN (parseFloatQ s)
  else .str s

/-- Token classification from the `for (const token of tokens)` loop of
`parseGridTemplate`; `none` means no track is pushed.  (For a malformed
`minmax(...)` with no comma the source dereferences `undefined` and throws;
that unreachable-for-valid-input case is modelled as `none`.) -/
def classifyToken (t : String) : Option GridTrack :=
  if t = "auto" then some ⟨.auto, .str "auto", none, none⟩
  else if t = "min-content" then some ⟨.minContent, .str "min-content", none, none⟩
  else if t = "max-content" then some ⟨.maxContent, .str "max-content", none, none⟩
  else if strEndsWith t "fr" then some ⟨.fr, numOrNaN (parseFloatQ t), none, none⟩
  else if strEndsWith t "px" ∨ strEndsWith t "em" ∨ strEndsWith t "rem" ∨ strEndsWith t "%" then
    some ⟨.px, numOrNaN (parseFloatQ t), none, none⟩
  else if strStartsWith t "minmax(" ∧ strEndsWith t ")" then
    let content := String.mk ((t.data.drop 7).dropLast)
    match (strSplitOn content ',').map jsTrim with
    | mn :: mx :: _ =>
      some ⟨.minmax, .str t, some (minmaxBound mn), some (minmaxBound mx)⟩
    | _ => none
  else
    match parseFloatQ t with
    | some q => some ⟨.px, .num q, none, none⟩
    | none => none

/-- `parseGridTemplate` from `src/parser/grid.ts`: empty or `none` input
gives no tracks; otherwise expand `repeat`, tokenize, classify. -/
def parseGridTemplate (value : String) : List GridTrack :=
  if value = "" ∨ value = "none" then []
  else (tokenize (expandRepeats value)).filterMap classifyToken

/-! ## Flex-basis translation (`yoga-adapter.ts` / `taffy-prebuilt.ts`)

Both adapters' `setFlexBasis` parse the same string shapes; they differ in
what they hand their backend.  `FlexBasisInput` is the `string | number`
argument; `CompactLengthV` is the value stored in the Taffy pending style
(`CompactLength.length/percent/auto`), while the Yoga adapter always calls
the native numeric `node.setFlexBasis`, so its result is just the number
passed (a point/pixel count). -/

/-- `basis : string | number`. -/
inductive FlexBasisInput where
  | num (q : ℚ)
  | str (s : String)

/-- The Taffy `CompactLength` values this code produces. -/
inductive CompactLengthV where
  | length (q : ℚ)
  | percent (q : ℚ)
  | auto
  | fr (q : ℚ)
deriving DecidableEq, Repr

/-- `a * n` for a natural literal, via `mkRat` (the Batteries `Rat.mul` is
irreducible and would block kernel evaluation); `mulNatQ_eq` certifies it. -/
def mulNatQ (a : ℚ) (n : ℕ) : ℚ :=
  mkRat (a.num * n) a.den

/-- `a / n` for a positive natural literal, via `mkRat`; `divNatQ_eq`
certifies it. -/
def divNatQ (a : ℚ) (n : ℕ) : ℚ :=
  mkRat a.num (a.den * n)

/-- `String.mk s.data.dropLast`, i.e. JavaScript `s.slice(0, -1)`. -/
def strDropLast (s : String) : String :=
  String.mk s.data.dropLast

/-- Unit chars admitted by the `setFlexBasis` length regular expression
(`[a-z%]+`). -/
def isUnitChar (c : Char) : Bool :=
  ('a' ≤ c ∧ c ≤ 'z') ∨ c = '%'

/-- The length match `^([+-]?(?:\d+\.?\d*|\.\d+))([a-z%]+)$` of both
`setFlexBasis` implementations: a signed decimal number followed by one or
more unit characters, consuming the whole string.  On success returns the
numeric value of the captured number (what `parseFloat` yields on it) and
the unit string. -/
def lengthMatch (s : String) : Option (ℚ × String) :=
  let cs := s.data
  let sign : ℤ × List Char :=
    match cs with
    | '+' :: r => (1, r)
    | '-' :: r => (-1, r)
    | _ => (1, cs)
  let intPart := sign.2.takeWhile (fun c => c.isDigit)
  let afterInt := sign.2.drop intPart.length
  let fracPart : Option (List Char) :=
    match afterInt with
    | '.' :: r => some (r.takeWhile (fun c => c.isDigit))
    | _ => none
  let unitCs : List Char :=
    match afterInt, fracPart with
    | _ :: _, some f => afterInt.drop (f.length + 1)
    | _, _ => afterInt
  if intPart.isEmpty ∧ (fracPart.getD []).isEmpty then none
  else if unitCs.isEmpty ∨ ¬(unitCs.all isUnitChar) then none
  else
    let f := fracPart.getD []
    let den := Nat.pow 10 f.length
    some (mkRat (sign.1 * (digitsVal intPart * den + digitsVal f)) den, String.mk unitCs)

/-- `TaffyNode.setFlexBasis` from `src/taffy/taffy-prebuilt.ts` (lines
534–596): the `CompactLength` written into the pending style. -/
def taffySetFlexBasis : FlexBasisInput → CompactLengthV
  | .num q => .length q
  | .str s =>
    let basisStr := strToLower (jsTrim s)
    if basisStr = "auto" then .auto
    else
      match (if strEndsWith basisStr "%" then parseFloatQ (strDropLast basisStr) else none) with
      | some v => .percent (divNatQ v 100)
      | none =>
        match lengthMatch basisStr with
        | some vu =>
          if vu.2 = "px" then .length vu.1
          else if vu.2 = "%" then .percent (divNatQ vu.1 100)
          else .length vu.1
        | none =>
          match parseFloatQ basisStr with
          | some v => .length v
          | none => .auto

/-- `YogaNodeAdapter.setFlexBasis` from
`src/layout-engine/yoga-adapter.ts` (lines 389–463): the number passed to
the native `node.setFlexBasis`, which Yoga interprets as points (pixels). -/
def yogaSetFlexBasis : FlexBasisInput → ℚ
  | .num q => q
  | .str s =>
    let basisStr := strToLower (jsTrim s)
    if basisStr = "auto" then 0
    else if basisStr = "content" ∨ basisStr = "max-content" ∨
        basisStr = "min-content" ∨ basisStr = "fit-content" then 0
    else
      match (if strEndsWith basisStr "%" then parseFloatQ (strDropLast basisStr) else none) with
      | some v => v
      | none =>
        match lengthMatch basisStr with
        | some vu =>
          if vu.2 = "px" then vu.1
          else if vu.2 = "em" ∨ vu.2 = "rem" then mulNatQ vu.1 16
          else if vu.2 = "%" then vu.1
          else vu.1
        | none =>
          match parseFloatQ basisStr with
          | some v => v
          | none => 0

/-! ## Edge-indexed position setters (C6)

`src/layout-engine/constants.ts` fixes the canonical edge indices, and each
adapter remaps them to its backend.  `PhysEdge` is the physical edge of the
node actually written. -/

def EDGE_LEFT : ℕ := 0
def EDGE_TOP : ℕ := 1
def EDGE_RIGHT : ℕ := 2
def EDGE_BOTTOM : ℕ := 3

/-- A physical edge of a node's box. -/
inductive PhysEdge where
  | left
  | top
  | right
  | bottom
deriving DecidableEq, Repr

/-- `YogaNodeAdapter.mapEdgeConstant` (yoga-adapter.ts lines 655–663): the
Yoga `EDGE_*` constants name physical edges, so the result is the physical
edge targeted. -/
def yogaMapEdgeConstant : ℕ → PhysEdge
  | 0 => .left
  | 1 => .top
  | 2 => .right
  | 3 => .bottom
  | _ + 4 => .left

/-- `YogaNodeAdapter.setPosition` (yoga-adapter.ts lines 648–652):
remaps the canonical edge and calls the native `node.setPosition`. -/
def yogaSetPosition (edge : ℕ) (value : ℚ) : Option (PhysEdge × ℚ) :=
  some (yogaMapEdgeConstant edge, value)

/-- `TaffyNodeAdapter.setPosition` (taffy adapter, lines 478–487):
dispatches `0 → setTop`, `1 → setRight`, `2 → setBottom`, `3 → setLeft`
(each of which writes the corresponding `inset` side in the pending style);
a switch with no default performs no write for other indices. -/
def taffySetPosition (edge : ℕ) (value : ℚ) : Option (PhysEdge × ℚ) :=
  match edge with
  | 0 => some (.top, value)
  | 1 => some (.right, value)
  | 2 => some (.bottom, value)
  | 3 => some (.left, value)
  | _ + 4 => none

/-- `TaffyNodeAdapter.setMarginEdge` (same adapter, lines 439–447), which
follows the canonical order `0=left, 1=top, 2=right, 3=bottom`. -/
def taffySetMarginEdge (edge : ℕ) (value : ℚ) : Option (PhysEdge × ℚ) :=
  match edge with
  | 0 => some (.left, value)
  | 1 => some (.top, value)
  | 2 => some (.right, value)
  | 3 => some (.bottom, value)
  | _ + 4 => none

/-! ## Display-grid fallback in `compute` (`src/handler/compute.ts`) -/

/-- The runtime-selected layout engine. -/
inductive EngineTy where
  | yoga
  | taffy
deriving DecidableEq, Repr

/-- Lines 129–141 of `compute`: with the Yoga engine, `display: grid` is
rewritten to `flex` and one `console.warn` is emitted; otherwise the display
value is untouched and nothing is warned.  Returns the resolved display and
the number of warnings emitted. -/
def resolveDisplayGrid (engine : EngineTy) (display : String) : String × ℕ :=
  if display = "grid" then
    match engine with
    | .yoga => ("flex", 1)
    | .taffy => (display, 0)
  else (display, 0)

/-- Modelled from the spec: the `v` keyword-alias helper of `utils.js`
(whose source is not under `src/`) selects the mapped value for a known
keyword and otherwise falls back to the given initial value. -/
def vLookup (value : String) (map : List (String × String)) (dflt : String) : String :=
  match map.lookup value with
  | some r => r
  | none => dflt

/-- The display alias table passed to `v` in `compute` (lines 367–380). -/
def displayAliasMap : List (String × String) :=
  [("flex", "flex"), ("grid", "grid"), ("block", "flex"),
   ("none", "none"), ("-webkit-box", "flex")]

/-- The display stage of `compute`: resolve the grid fallback first, then
issue the backend `setDisplay` call on the resolved value.  Returns
(warnings emitted, resolved `style.display`, display sent to the backend). -/
def computeDisplayStage (engine : EngineTy) (display : String) : ℕ × String × String :=
  let rd := resolveDisplayGrid engine display
  (rd.2, rd.1, vLookup rd.1 displayAliasMap "flex")

/-! ## Replaced-element intrinsic-size guard (`compute`, lines 143–157) -/

def imageSizeErrorMsg : String :=
  "Image size cannot be determined. Please provide the width and height of the image."

/-- The `img` branch guard of `compute`: when `resolveImageData` yields
neither an intrinsic width nor height, explicit `props.width` and
`props.height` are both required, else the error is thrown (the `async`
function rejects, so the caller receives it and no layout result exists). -/
def imgSizeGuard (imageWidth imageHeight propsWidth propsHeight : Option ℚ) :
    Except String (Option ℚ × Option ℚ) :=
  if imageWidth = none ∧ imageHeight = none then
    if propsWidth = none ∨ propsHeight = none then .error imageSizeErrorMsg
    else .ok (propsWidth, propsHeight)
  else .ok (imageWidth, imageHeight)

/-! ## Batched style flush before solve (`TaffyNode.calculateLayout`)

A `TaffyNode` tree: each node carries its backend node id, its pending
style (an abstract value of type `σ`, the latest value written by the
setters), the `styleNeedsUpdate` flag, and its children in document order.
`calculateLayout` emits the sequence of backend calls: `update_style` for
every flushed node, then one `compute_layout`. -/

/-- A backend call issued to the `TaffyTree`. -/
inductive BEvent (σ : Type) where
  | updateStyle (id : ℕ) (style : σ)
  | computeLayout (w h : Option ℚ)
deriving DecidableEq, Repr

/-- A `TaffyNode` subtree. -/
inductive TTree (σ : Type) where
  | mk (id : ℕ) (style : σ) (needsUpdate : Bool) (children : List (TTree σ))
deriving Repr

/-- `TaffyNode.applyPendingStyleUpdates` (taffy-prebuilt.ts lines
1081–1088): one `update_style` call when the flag is set, none otherwise. -/
def applyPendingStyleUpdates {σ : Type} : TTree σ → List (BEvent σ)
  | .mk i s u _ => if u then [.updateStyle i s] else []

mutual

/-- `TaffyNode.applyChildrenStyleUpdates` (lines 793–798): each child
flushes itself, then its own children, recursively, in document order. -/
def applyChildrenStyleUpdates {σ : Type} : TTree σ → List (BEvent σ)
  | .mk _ _ _ cs => applyChildrenAux cs

/-- The `for (const child of this.children)` loop of
`applyChildrenStyleUpdates`. -/
def applyChildrenAux {σ : Type} : List (TTree σ) → List (BEvent σ)
  | [] => []
  | c :: rest =>
    applyPendingStyleUpdates c ++ applyChildrenStyleUpdates c ++ applyChildrenAux rest

end

/-- `TaffyNode.calculateLayout` (lines 775–791): flush this node, then the
whole subtree, then run the backend solve. -/
def taffyCalculateLayout {σ : Type} (t : TTree σ) (w h : Option ℚ) : List (BEvent σ) :=
  applyPendingStyleUpdates t ++ applyChildrenStyleUpdates t ++ [.computeLayout w h]

mutual

/-- The nodes of a subtree in document (pre-)order, as
(id, pending style, needsUpdate) triples. -/
def preorder {σ : Type} : TTree σ → List (ℕ × σ × Bool)
  | .mk i s u cs => (i, s, u) :: preorderList cs

def preorderList {σ : Type} : List (TTree σ) → List (ℕ × σ × Bool)
  | [] => []
  | c :: rest => preorder c ++ preorderList rest

end

/-- The specified flush trace: one `update_style` per dirty node of the
subtree, in document order. -/
def flushSpec {σ : Type} (t : TTree σ) : List (BEvent σ) :=
  ((preorder t).filter (fun x => x.2.2)).map (fun x => .updateStyle x.1 x.2.1)

/-- As `flushSpec`, over a child list. -/
def flushSpecList {σ : Type} (cs : List (TTree σ)) : List (BEvent σ) :=
  ((preorderList cs).filter (fun x => x.2.2)).map (fun x => .updateStyle x.1 x.2.1)

mutual

/-- A style setter run on the node at child-index path `p`: it overwrites
that node's pending style and sets its `styleNeedsUpdate` flag (the effect
of any `TaffyNode` setter followed by `markStyleUpdate`). -/
def mutateAt {σ : Type} : TTree σ → List ℕ → σ → TTree σ
  | .mk i _ _ cs, [], s2 => .mk i s2 true cs
  | .mk i s u cs, k :: p, s2 => .mk i s u (mutateList cs k p s2)

def mutateList {σ : Type} : List (TTree σ) → ℕ → List ℕ → σ → List (TTree σ)
  | [], _, _, _ => []
  | c :: rest, 0, p, s2 => mutateAt c p s2 :: rest
  | c :: rest, n + 1, p, s2 => c :: mutateList rest n p s2

end

mutual

/-- The backend id of the node at child-index path `p`. -/
def nodeIdAt {σ : Type} : TTree σ → List ℕ → Option ℕ
  | .mk i _ _ _, [] => some i
  | .mk _ _ _ cs, k :: p => nodeIdAtList cs k p

def nodeIdAtList {σ : Type} : List (TTree σ) → ℕ → List ℕ → Option ℕ
  | [], _, _ => none
  | c :: _, 0, p => nodeIdAt c p
  | _ :: rest, n + 1, p => nodeIdAtList rest n p

end

/-! ## Measure-callback constraint normalization (`TaffyRoot.computeLayout`)

The callback handed to `compute_layout_with_measure` (taffy-prebuilt.ts
lines 118–174) converts each `AvailableSpace` dimension to a number before
invoking the node's registered measure function. -/

/-- One dimension of `Size<AvailableSpace>`. -/
inductive AvailSpace where
  | definite (q : ℚ)
  | maxContent
  | minContent
deriving DecidableEq, Repr

/-- The per-dimension conversion (lines 133–158): `Definite` passes its
number, `MaxContent` becomes `Number.MAX_SAFE_INTEGER`, `MinContent`
becomes `0`. -/
def availToNumber : AvailSpace → ℚ
  | .definite q => q
  | .maxContent => maxSafeInteger
  | .minContent => 0

/-- The full normalization including the special case of lines 160–164:
when `computeLayout` was invoked with a definite `width` and no `height`, a
zero width constraint is replaced by that `width`.  Returns the
(width, height) pair passed to the measure function. -/
def measureConstraints (spW spH : AvailSpace) (w h : Option ℚ) : ℚ × ℚ :=
  let aw := availToNumber spW
  let ah := availToNumber spH
  match w, h with
  | some wv, none => (if aw = 0 then wv else aw, ah)
  | _, _ => (aw, ah)

/-! ## Bounded-depth measure recursion guard
(`TaffyRoot.setMeasureFunction`, taffy-prebuilt.ts lines 191–219) -/

/-- A measurement result. -/
structure MeasuredSize where
  width : ℚ
  height : ℚ
deriving DecidableEq, Repr

/-- The mutable state captured by the guard closure: the current
`measureDepth` and `lastGoodMeasurement`. -/
structure GuardState where
  measureDepth : ℕ
  lastGoodMeasurement : Option MeasuredSize
deriving DecidableEq, Repr

def MAX_MEASURE_DEPTH : ℕ := 10

/-- A re-entrant invocation pattern of the wrapped measure function: the
arguments of one invocation together with the nested re-invocations the
backend performs while the underlying callback runs. -/
inductive MScript where
  | call (width height : ℚ) (nested : List MScript)

mutual

/-- The semantics of `taffyEnhancedMeasureFunc`: one invocation of the
wrapped measure function.  `cb` gives the underlying callback's result for
given arguments.  Returns the invocation's result, the state after it
returns, and how many times the underlying callback was invoked (in this
invocation and all invocations nested inside it).  On entry the depth is
incremented; past `MAX_MEASURE_DEPTH` the underlying callback is skipped
and the last good measurement (or the `max(width, 1) × 20` fallback) is
returned with the state rolled back; otherwise the nested re-invocations
run while the callback computes, the result becomes the new last good
measurement, and the depth is decremented back. -/
def runMeasure (cb : ℚ → ℚ → MeasuredSize) : GuardState → MScript → MeasuredSize × GuardState × ℕ
  | st, .call w h nested =>
    let d := st.measureDepth + 1
    if MAX_MEASURE_DEPTH < d then
      (st.lastGoodMeasurement.getD ⟨max w 1, 20⟩, ⟨st.measureDepth, st.lastGoodMeasurement⟩, 0)
    else
      let inner := runMeasureList cb ⟨d, st.lastGoodMeasurement⟩ nested
      let r := cb w h
      (r, ⟨inner.1.measureDepth - 1, some r⟩, inner.2 + 1)

def runMeasureList (cb : ℚ → ℚ → MeasuredSize) : GuardState → List MScript → GuardState × ℕ
  | st, [] => (st, 0)
  | st, s :: rest =>
    let one := runMeasure cb st s
    let more := runMeasureList cb one.2.1 rest
    (more.1, one.2.2 + more.2)

end

/-! ## Implicit default solve on first geometry read
(`TaffyRoot.ensureLayoutCalculated` and the `getLayout*` getters,
taffy-prebuilt.ts lines 183–243) -/

/-- The backend tree's post-solve geometry, abstractly: each `layout_*`
getter is a function of the most recent solve's (width, height) arguments
and the queried node id. -/
structure TreeGeom where
  layoutLeft : (Option ℚ × Option ℚ) → ℕ → ℚ
  layoutTop : (Option ℚ × Option ℚ) → ℕ → ℚ
  layoutWidth : (Option ℚ × Option ℚ) → ℕ → ℚ
  layoutHeight : (Option ℚ × Option ℚ) → ℕ → ℚ

/-- The `TaffyRoot` solve bookkeeping: the `hasLayoutBeenCalculated` flag
and the arguments of the most recent `computeLayout` (none before any
solve). -/
structure RootState where
  hasLayoutBeenCalculated : Bool
  lastSolve : Option (Option ℚ × Option ℚ)
deriving DecidableEq, Repr

/-- A fresh `TaffyRoot`: no layout computed yet. -/
def initialRootState : RootState := ⟨false, none⟩

/-- `TaffyRoot.computeLayout w h` effect on the bookkeeping: the backend
solves with (w, h) and the flag is set. -/
def computeLayoutRoot (w h : Option ℚ) : RootState :=
  ⟨true, some (w, h)⟩

/-- `TaffyRoot.ensureLayoutCalculated` (lines 184–189): solve with the
default 100 × 100 available space unless a layout was already computed. -/
def ensureLayoutCalculated (st : RootState) : RootState :=
  if st.hasLayoutBeenCalculated then st else computeLayoutRoot (some 100) (some 100)

/-- Reading one `tree.layout_*` value: defined only after some solve. -/
def readLayout (g : (Option ℚ × Option ℚ) → ℕ → ℚ) (st : RootState) (n : ℕ) : Option ℚ :=
  match st.lastSolve with
  | some params => some (g params n)
  | none => none

/-- `TaffyRoot.getLayoutLeft` (lines 225–228): ensure a layout exists, then
read.  Returns the value and the state after the call. -/
def getLayoutLeft (tg : TreeGeom) (st : RootState) (n : ℕ) : Option ℚ × RootState :=
  let st2 := ensureLayoutCalculated st
  (readLayout tg.layoutLeft st2 n, st2)

/-- `TaffyRoot.getLayoutTop` (lines 230–233). -/
def getLayoutTop (tg : TreeGeom) (st : RootState) (n : ℕ) : Option ℚ × RootState :=
  let st2 := ensureLayoutCalculated st
  (readLayout tg.layoutTop st2 n, st2)

/-- `TaffyRoot.getLayoutWidth` (lines 235–238). -/
def getLayoutWidth (tg : TreeGeom) (st : RootState) (n : ℕ) : Option ℚ × RootState :=
  let st2 := ensureLayoutCalculated st
  (readLayout tg.layoutWidth st2 n, st2)

/-- `TaffyRoot.getLayoutHeight` (lines 240–243). -/
def getLayoutHeight (tg : TreeGeom) (st : RootState) (n : ℕ) : Option ℚ × RootState :=
  let st2 := ensureLayoutCalculated st
  (readLayout tg.layoutHeight st2 n, st2)

/-! ## Theorems -/

/-- `mulNatQ` is multiplication: certifies that the `mkRat` encoding used
in the embedding equals the source's `value * 16`. -/
theorem mulNatQ_eq (a : ℚ) (n : ℕ) : mulNatQ a n = a * n := by
  rw [mulNatQ, Rat.mkRat_eq_div]
  calc ((a.num * (n : ℤ) : ℤ) : ℚ) / ((a.den : ℕ) : ℚ)
      = (a.num : ℚ) / (a.den : ℚ) * (n : ℚ) := by push_cast; ring
  _ = a * n := by rw [Rat.num_div_den]

/-- `divNatQ` is division: certifies that the `mkRat` encoding used in the
embedding equals the source's `percentValue / 100.0`. -/
theorem divNatQ_eq (a : ℚ) (n : ℕ) : divNatQ a n = a / n := by
  rw [divNatQ, Rat.mkRat_eq_div]
  calc ((a.num : ℤ) : ℚ) / ((a.den * n : ℕ) : ℚ)
      = (a.num : ℚ) / (a.den : ℚ) / (n : ℚ) := by push_cast; ring
  _ = a / n := by rw [Rat.num_div_den]

mutual

/-- The flush emitted for a node and then its subtree equals the document
(pre-)ordered flush of every dirty node of that subtree. -/
theorem flush_eq {σ : Type} : ∀ t : TTree σ,
    applyPendingStyleUpdates t ++ applyChildrenStyleUpdates t = flushSpec t
  | .mk i s u cs => by
    have h := flushAux_eq cs
    simp only [applyPendingStyleUpdates, applyChildrenStyleUpdates, flushSpec, preorder,
      List.filter_cons, flushSpecList] at *
    cases u with
    | false => simpa using h
    | true => simpa using h

/-- List version of `flush_eq`. -/
theorem flushAux_eq {σ : Type} : ∀ cs : List (TTree σ),
    applyChildrenAux cs = flushSpecList cs
  | [] => by simp [applyChildrenAux, flushSpecList, preorderList]
  | c :: rest => by
    have h1 := flush_eq c
    have h2 := flushAux_eq rest
    simp only [flushSpec, flushSpecList] at h1 h2
    simp only [applyChildrenAux, flushSpecList, preorderList, List.filter_append,
      List.map_append]
    rw [h1, h2]

end

mutual

/-- After mutating the node at path `p`, that node appears dirty, with the
new style, in the subtree's document order. -/
theorem mem_preorder_mutateAt {σ : Type} : ∀ (t : TTree σ) (p : List ℕ) (i : ℕ) (s2 : σ),
    nodeIdAt t p = some i → (i, s2, true) ∈ preorder (mutateAt t p s2)
  | .mk j s u cs, [], i, s2, h => by
    simp only [nodeIdAt, Option.some_inj] at h
    subst h
    simp [mutateAt, preorder]
  | .mk j s u cs, k :: p, i, s2, h => by
    simp only [nodeIdAt] at h
    simp only [mutateAt, preorder, List.mem_cons]
    exact Or.inr (mem_preorderList_mutateList cs k p i s2 h)

/-- List version of `mem_preorder_mutateAt`. -/
theorem mem_preorderList_mutateList {σ : Type} :
    ∀ (cs : List (TTree σ)) (k : ℕ) (p : List ℕ) (i : ℕ) (s2 : σ),
    nodeIdAtList cs k p = some i → (i, s2, true) ∈ preorderList (mutateList cs k p s2)
  | [], k, p, i, s2, h => by simp [nodeIdAtList] at h
  | c :: rest, 0, p, i, s2, h => by
    simp only [nodeIdAtList] at h
    simp only [mutateList, preorderList, List.mem_append]
    exact Or.inl (mem_preorder_mutateAt c p i s2 h)
  | c :: rest, n + 1, p, i, s2, h => by
    simp only [nodeIdAtList] at h
    simp only [mutateList, preorderList, List.mem_append]
    exact Or.inr (mem_preorderList_mutateList rest n p i s2 h)

end

/-- Claim C1: with the Yoga engine active, an element resolved to
`display: grid` has its display rewritten to `flex` before the backend
`setDisplay` call and exactly one warning is emitted; with the Taffy engine
no warning is emitted, the display stays `grid`, and the backend receives
`grid`. -/
theorem grid_display_fallback :
    computeDisplayStage .yoga "grid" = (1, "flex", "flex")
    ∧ computeDisplayStage .taffy "grid" = (0, "grid", "grid") := by
  constructor <;> decide

/-- Claim C2 (code bug): evaluating both adapters' `setFlexBasis` at the
percentage input `"50%"`.  The Taffy backend stores the percent length
50/100 = 1/2, but the Yoga adapter passes the bare number 50 to the native
pixel flex-basis setter — exactly what it passes for the numeric pixel
input `50` — so the percentage is coerced to a literal pixel count instead
of staying a percentage. -/
theorem yoga_flexBasis_percent_as_pixels :
    taffySetFlexBasis (.str "50%") = .percent (mkRat 1 2)
    ∧ yogaSetFlexBasis (.str "50%") = 50
    ∧ yogaSetFlexBasis (.str "50%") = yogaSetFlexBasis (.num 50) := by
  refine ⟨by decide, by decide, by decide⟩

/-- Claim C3: `calculateLayout` on a Taffy node emits exactly the
`update_style` calls of every dirty node of its whole subtree, in document
order (each parent before its children), followed by the single backend
`compute_layout`; and in particular a style mutation applied to any node of
the subtree before `calculateLayout` is flushed before the solve. -/
theorem calculateLayout_flushes_entire_subtree {σ : Type} :
    (∀ (t : TTree σ) (w h : Option ℚ),
      taffyCalculateLayout t w h = flushSpec t ++ [BEvent.computeLayout w h])
    ∧ (∀ (t : TTree σ) (p : List ℕ) (i : ℕ) (s2 : σ) (w h : Option ℚ),
      nodeIdAt t p = some i →
      BEvent.updateStyle i s2 ∈ (taffyCalculateLayout (mutateAt t p s2) w h).dropLast) := by
  have key : ∀ (t : TTree σ) (w h : Option ℚ),
      taffyCalculateLayout t w h = flushSpec t ++ [BEvent.computeLayout w h] := by
    intro t w h
    rw [taffyCalculateLayout, flush_eq]
  refine ⟨key, ?_⟩
  intro t p i s2 w h hn
  rw [key, List.dropLast_concat]
  have hm := mem_preorder_mutateAt t p i s2 hn
  exact List.mem_map_of_mem _ (List.mem_filter.mpr ⟨hm, rfl⟩)

/-- Witness for C3 at a concrete two-node tree: mutating the child after
the parent was created clean still flushes the child's update before the
solve. -/
theorem calculateLayout_flushes_entire_subtree_witness :
    BEvent.updateStyle 7 99 ∈
      (taffyCalculateLayout
        (mutateAt (TTree.mk 1 (0 : ℕ) false [TTree.mk 7 5 false []]) [0] 99)
        (some 100) (some 100)).dropLast :=
  calculateLayout_flushes_entire_subtree.2
    (TTree.mk 1 (0 : ℕ) false [TTree.mk 7 5 false []]) [0] 7 99 (some 100) (some 100) rfl

/-- Claim C4 counterexample: a MinContent width constraint is not passed
to the measure callback as zero when the solve was invoked with a definite
width and no height — the callback receives the solve's width (here 200)
instead of the 3-way encoding's zero. -/
theorem measure_minContent_width_overridden :
    measureConstraints .minContent (.definite 50) (some 200) none = (200, 50)
    ∧ (200 : ℚ) ≠ 0 := by
  constructor
  · rfl
  · decide

/-- Claim C4, amended: the height constraint always follows the 3-way
encoding (`Definite` passes its number, `MaxContent` passes
`Number.MAX_SAFE_INTEGER`, `MinContent` passes zero); the width constraint
follows it except when the solve was invoked with a definite width and no
height, in which case a zero width constraint is replaced by the solve's
width. -/
theorem measure_constraints_normalized :
    ∀ (spW spH : AvailSpace) (w h : Option ℚ),
      (measureConstraints spW spH w h).2 = availToNumber spH
      ∧ ((w = none ∨ h ≠ none) →
          measureConstraints spW spH w h = (availToNumber spW, availToNumber spH))
      ∧ (∀ wv, w = some wv → h = none → availToNumber spW ≠ 0 →
          (measureConstraints spW spH w h).1 = availToNumber spW)
      ∧ (∀ wv, w = some wv → h = none → availToNumber spW = 0 →
          (measureConstraints spW spH w h).1 = wv) := by
  intro spW spH w h
  refine ⟨?_, ?_, ?_, ?_⟩
  · cases w <;> cases h <;> simp [measureConstraints]
  · rintro (rfl | hne)
    · cases h <;> simp [measureConstraints]
    · cases h with
      | none => exact absurd rfl hne
      | some hv => cases w <;> simp [measureConstraints]
  · rintro wv rfl rfl hnz
    simp [measureConstraints, hnz]
  · rintro wv rfl rfl hz
    simp [measureConstraints, hz]

/-- Witness for C4's amended theorem at concrete inputs: MaxContent width
with a definite height passes `MAX_SAFE_INTEGER`, and the zero-width
override passes the solve's width. -/
theorem measure_constraints_normalized_witness :
    (measureConstraints .maxContent (.definite 7) none (some 3) =
      (maxSafeInteger, 7))
    ∧ (measureConstraints .minContent (.definite 50) (some 200) none).1 = 200 :=
  ⟨(measure_constraints_normalized .maxContent (.definite 7) none (some 3)).2.1
      (Or.inl rfl),
   (measure_constraints_normalized .minContent (.definite 50) (some 200) none).2.2.2
      200 rfl rfl rfl⟩

/-- Claim C5: an invocation of the wrapped measure function nested deeper
than `MAX_MEASURE_DEPTH = 10` (entry depth already at the bound) does not
invoke the underlying callback (invocation count 0) and returns the last
good measurement when one exists, leaving the guard state unchanged. -/
theorem measure_guard_depth_exceeded (cb : ℚ → ℚ → MeasuredSize) (st : GuardState)
    (w h : ℚ) (nested : List MScript) (m : MeasuredSize)
    (hd : MAX_MEASURE_DEPTH ≤ st.measureDepth)
    (hm : st.lastGoodMeasurement = some m) :
    runMeasure cb st (.call w h nested) = (m, st, 0) := by
  cases st with
  | mk depth lg =>
    simp only [GuardState.lastGoodMeasurement] at hm
    subst hm
    simp only [GuardState.measureDepth] at hd
    simp [runMeasure, Nat.lt_add_one_iff, hd]

/-- Witness for C5: at depth 10 with a recorded last good measurement, the
invocation returns it without invoking the underlying callback. -/
theorem measure_guard_depth_exceeded_witness :
    runMeasure (fun _ _ => ⟨1, 2⟩) ⟨10, some ⟨3, 4⟩⟩ (.call 5 6 []) =
      (⟨3, 4⟩, ⟨10, some ⟨3, 4⟩⟩, 0) :=
  measure_guard_depth_exceeded (fun _ _ => ⟨1, 2⟩) ⟨10, some ⟨3, 4⟩⟩ 5 6 [] ⟨3, 4⟩
    (by decide) rfl

/-- Claim C6 (code bug): at the canonical edge index `EDGE_LEFT = 0`
(declared in `constants.ts`), the Yoga adapter's `setPosition` writes the
left inset while the Taffy adapter's `setPosition` writes the top inset —
different physical edges.  The same Taffy adapter's `setMarginEdge` follows
the canonical order at the same index. -/
theorem setPosition_edge_mismatch :
    yogaSetPosition EDGE_LEFT 5 = some (.left, 5)
    ∧ taffySetPosition EDGE_LEFT 5 = some (.top, 5)
    ∧ taffySetMarginEdge EDGE_LEFT 5 = some (.left, 5)
    ∧ PhysEdge.left ≠ PhysEdge.top := by
  refine ⟨by decide, by decide, by decide, by decide⟩

/-- Claim C7: `parseTemplate("repeat(3, 1fr 10px)")` yields exactly six
tracks, the sequence fr(1), px(10) repeated three times in order. -/
theorem parseTemplate_repeat_three :
    parseGridTemplate "repeat(3, 1fr 10px)" =
      [⟨.fr, .num 1, none, none⟩, ⟨.px, .num 10, none, none⟩,
       ⟨.fr, .num 1, none, none⟩, ⟨.px, .num 10, none, none⟩,
       ⟨.fr, .num 1, none, none⟩, ⟨.px, .num 10, none, none⟩] := by
  decide

/-- Claim C8 counterexample: apart from echoing the raw token string in
`value`, the single track parsed from `minmax(20px, 1fr)` is identical to
the one parsed from `minmax(20px, 1px)` — the stored `max` is the bare
number 1 in both, so it does not record a flexible `fr(1)` share as
distinct from a fixed 1px length. -/
theorem parseTemplate_minmax_fr_untagged :
    (parseGridTemplate "minmax(20px, 1fr)").map (fun t => (t.type, t.min, t.max)) =
      (parseGridTemplate "minmax(20px, 1px)").map (fun t => (t.type, t.min, t.max))
    ∧ parseGridTemplate "minmax(20px, 1px)" =
      [⟨.minmax, .str "minmax(20px, 1px)", some (.num 20), some (.num 1)⟩] := by
  refine ⟨by decide, by decide⟩

/-- Claim C8, amended: `parseTemplate("minmax(20px, 1fr)")` yields exactly
one track of minmax type whose `min` is the bare number 20 (parsed from
`20px`) and whose `max` is the bare number 1 (parsed from `1fr`); the
px/fr unit tags of the bounds are not recorded (only the raw string in
`value`). -/
theorem parseTemplate_minmax_bare_numbers :
    parseGridTemplate "minmax(20px, 1fr)" =
      [⟨.minmax, .str "minmax(20px, 1fr)", some (.num 20), some (.num 1)⟩] := by
  decide

/-- Claim C9: for an `img` element whose image data yields neither an
intrinsic width nor height, a missing explicit width or height prop makes
`compute` throw the image-size error, producing no layout result (the
error propagates to the caller of the async function). -/
theorem img_missing_intrinsic_size_throws
    (propsWidth propsHeight : Option ℚ)
    (h : propsWidth = none ∨ propsHeight = none) :
    imgSizeGuard none none propsWidth propsHeight = .error imageSizeErrorMsg
    ∧ ∀ r, imgSizeGuard none none propsWidth propsHeight ≠ .ok r := by
  have he : imgSizeGuard none none propsWidth propsHeight = .error imageSizeErrorMsg := by
    simp [imgSizeGuard, h]
  exact ⟨he, fun r hr => by rw [he] at hr; exact Except.noConfusion hr⟩

/-- Witness for C9: an image with no intrinsic size and only a height
prop. -/
theorem img_missing_intrinsic_size_throws_witness :
    imgSizeGuard none none none (some 120) = .error imageSizeErrorMsg :=
  (img_missing_intrinsic_size_throws none (some 120) (Or.inl rfl)).1

/-- Claim C10: reading any computed geometry value from a fresh
`TaffyRoot` never fails — it triggers the implicit 100 × 100 solve and
returns that solve's geometry, leaving the root marked as solved. -/
theorem layout_read_before_solve_defaults (tg : TreeGeom) (n : ℕ) :
    getLayoutLeft tg initialRootState n =
      (some (tg.layoutLeft (some 100, some 100) n), ⟨true, some (some 100, some 100)⟩)
    ∧ getLayoutTop tg initialRootState n =
      (some (tg.layoutTop (some 100, some 100) n), ⟨true, some (some 100, some 100)⟩)
    ∧ getLayoutWidth tg initialRootState n =
      (some (tg.layoutWidth (some 100, some 100) n), ⟨true, some (some 100, some 100)⟩)
    ∧ getLayoutHeight tg initialRootState n =
      (some (tg.layoutHeight (some 100, some 100) n), ⟨true, some (some 100, some 100)⟩) :=
  ⟨rfl, rfl, rfl, rfl⟩

end SatoriTaffy
